import Mathlib

/-!
Verification of the classification-and-transfer engine of the File Organizer
application (src/main.py), as a shallow embedding in Lean 4.

Conventions used throughout:
* Python sets of extension strings become `List String` (only membership matters).
* `pathlib.PurePath.suffix` / `.stem` are embedded faithfully, including the
  corner cases where the final dot is the first or the last character of the
  name (in which case `suffix` is empty and `stem` is the whole name).
* The destination-selection chain of `App._worker` (main.py lines 472-503),
  the statistics chain of `App.scan_sizes` (lines 358-389), the collision
  resolver (lines 475-480 and 505-511), the worker loop (lines 455-540), and
  `App.start` (lines 421-446) each get a direct functional embedding below.
-/

namespace FileOrganizer

/-- Image extensions, src/main.py line 12. -/
def IMAGE_EXT : List String :=
  [".jpg", ".jpeg", ".png", ".gif", ".bmp", ".tiff", ".svg", ".webp", ".heic", ".raw"]

/-- Video extensions, src/main.py line 13. -/
def VIDEO_EXT : List String :=
  [".mp4", ".avi", ".mkv", ".mov", ".wmv", ".flv", ".webm", ".mpeg", ".mpg", ".3gp"]

/-- Audio extensions, src/main.py line 14. -/
def AUDIO_EXT : List String :=
  [".mp3", ".wav", ".flac", ".aac", ".ogg", ".wma", ".m4a"]

/-- Setup extensions, src/main.py line 15. -/
def SETUP_EXT : List String :=
  [".exe", ".msi", ".dmg", ".pkg", ".deb"]

/-- Document extensions, src/main.py line 16. -/
def DOC_EXT : List String :=
  [".pdf", ".doc", ".docx", ".xls", ".xlsx", ".ppt", ".pptx", ".txt"]

/-- Compressed extensions, src/main.py line 17. -/
def COMPRESSED_EXT : List String :=
  [".zip", ".rar", ".7z", ".tar", ".gz"]

/-- All registered extensions, in the concatenation order used by the registry. -/
def allRegisteredExt : List String :=
  IMAGE_EXT ++ VIDEO_EXT ++ AUDIO_EXT ++ SETUP_EXT ++ DOC_EXT ++ COMPRESSED_EXT

/-- Index of the last occurrence of a dot in a character list (Python
`str.rfind` restricted to the character it is called with in pathlib). -/
def lastDotIndex : List Char → Option Nat
  | [] => none
  | c :: cs =>
    match lastDotIndex cs with
    | some i => some (i + 1)
    | none => if c = '.' then some 0 else none

/-- Embedding of `pathlib.PurePath.suffix`: the substring starting at the last
dot, provided that dot is neither the first nor the last character of the
name; otherwise the empty string. -/
def pathSuffix (name : String) : String :=
  match lastDotIndex name.data with
  | none => ""
  | some i => if 0 < i ∧ i + 1 < name.data.length then ⟨name.data.drop i⟩ else ""

/-- Embedding of `pathlib.PurePath.stem`: the part of the name before
`pathSuffix` (the whole name when the suffix is empty). -/
def pathStem (name : String) : String :=
  match lastDotIndex name.data with
  | none => name
  | some i => if 0 < i ∧ i + 1 < name.data.length then ⟨name.data.take i⟩ else name

/-- Embedding of `str.lower()`: lower-case every character.  (`Char.toLower`
lower-cases the ASCII range, which covers every extension the program
compares against.) -/
def strLower (s : String) : String :=
  ⟨s.data.map Char.toLower⟩

/-- The six destination categories of the worker (one per destination folder
variable of the GUI; images and videos share one destination). -/
inductive DestCat where
  | imagesVideos
  | documents
  | audio
  | setupFiles
  | compressed
  | others
deriving DecidableEq

/-- The seven statistics categories of `App.scan_sizes` (images and videos are
counted separately there). -/
inductive ScanCat where
  | documents
  | audio
  | setupFiles
  | images
  | videos
  | compressed
  | other
deriving DecidableEq

/-- Destination-selection chain for a file, applied to the already lower-cased
extension string: src/main.py lines 491-503. -/
def workerExtDest (ext : String) : DestCat :=
  if ext ∈ IMAGE_EXT ∨ ext ∈ VIDEO_EXT then .imagesVideos
  else if ext ∈ DOC_EXT then .documents
  else if ext ∈ AUDIO_EXT then .audio
  else if ext ∈ SETUP_EXT then .setupFiles
  else if ext ∈ COMPRESSED_EXT then .compressed
  else .others

/-- Destination category of a file name as computed by the worker:
`ext = f.suffix.lower()` followed by the chain (src/main.py line 491). -/
def workerDestOf (name : String) : DestCat :=
  workerExtDest (strLower (pathSuffix name))

/-- Statistics chain of `App.scan_sizes`, applied to the already lower-cased
extension string: src/main.py lines 366-387.  Note the different check order
(documents first) compared with `workerExtDest`. -/
def scanCatOf (ext : String) : ScanCat :=
  if ext ∈ DOC_EXT then .documents
  else if ext ∈ AUDIO_EXT then .audio
  else if ext ∈ SETUP_EXT then .setupFiles
  else if ext ∈ IMAGE_EXT then .images
  else if ext ∈ VIDEO_EXT then .videos
  else if ext ∈ COMPRESSED_EXT then .compressed
  else .other

/-- Map a statistics category to the destination category the worker would
send such a file to (images and videos share the Images/Videos destination). -/
def destOfScanCat : ScanCat → DestCat
  | .documents => .documents
  | .audio => .audio
  | .setupFiles => .setupFiles
  | .images => .imagesVideos
  | .videos => .imagesVideos
  | .compressed => .compressed
  | .other => .others

/-- The Extension Registry of the spec's data model, as an association list
from lower-cased dot-prefixed extension to category. -/
def extensionRegistry : List (String × DestCat) :=
  (IMAGE_EXT ++ VIDEO_EXT).map (fun e => (e, DestCat.imagesVideos)) ++
  AUDIO_EXT.map (fun e => (e, DestCat.audio)) ++
  SETUP_EXT.map (fun e => (e, DestCat.setupFiles)) ++
  DOC_EXT.map (fun e => (e, DestCat.documents)) ++
  COMPRESSED_EXT.map (fun e => (e, DestCat.compressed))

/-- Registry lookup: the category registered for an extension, if any. -/
def registryLookup (ext : String) : Option DestCat :=
  (extensionRegistry.find? (fun p => p.1 = ext)).map Prod.snd

/-- Modelled from the spec (claim C4's definition of the extension): the
substring after the final dot, including the dot, and the empty string when
the name has no dot.  This deliberately follows the spec's words, not the
code, so that the two can be compared; it differs from `pathSuffix` when the
final dot is the first or last character of the name. -/
def specExtension (name : String) : String :=
  match lastDotIndex name.data with
  | none => ""
  | some i => ⟨name.data.drop i⟩

/-- Classification as claim C4 words it: registry lookup on the lower-cased
spec-defined extension, defaulting to Other. -/
def specClassify (name : String) : DestCat :=
  (registryLookup (strLower (specExtension name))).getD .others

/-- Decimal digit list of a natural number, most significant digit first.
This is the reference form of what `Nat.toDigitsCore` computes with fuel. -/
def decDigits (n : Nat) : List Char :=
  if n < 10 then [Nat.digitChar n]
  else decDigits (n / 10) ++ [Nat.digitChar (n % 10)]
termination_by n
decreasing_by exact Nat.div_lt_self (by omega) (by omega)

/-- Numeric value of a decimal digit character. -/
def decVal (c : Char) : Nat := c.toNat - 48

/-- Decode a decimal digit list back to a natural number. -/
def decodeDec (cs : List Char) : Nat := cs.foldl (fun a c => 10 * a + decVal c) 0

theorem toDigitsCore_eq_decDigits (fuel n : Nat) (ds : List Char) (h : n < fuel) :
    Nat.toDigitsCore 10 fuel n ds = decDigits n ++ ds := by
  induction fuel generalizing n ds with
  | zero => omega
  | succ fuel ih =>
    by_cases h0 : n / 10 = 0
    · have hlt : n < 10 := by omega
      have hmod : n % 10 = n := Nat.mod_eq_of_lt hlt
      simp only [Nat.toDigitsCore]
      rw [if_pos h0]
      rw [decDigits, if_pos hlt]
      simp [hmod]
    · have h10 : 10 ≤ n := by omega
      have hdiv : n / 10 < n := Nat.div_lt_self (by omega) (by omega)
      have hd : decDigits n = decDigits (n / 10) ++ [Nat.digitChar (n % 10)] := by
        rw [decDigits]
        exact if_neg (by omega)
      simp only [Nat.toDigitsCore]
      rw [if_neg h0]
      rw [ih (n / 10) _ (by omega)]
      rw [hd]
      simp

theorem natRepr_data (n : Nat) : (Nat.repr n).data = decDigits n := by
  show (Nat.toDigits 10 n).asString.data = decDigits n
  rw [Nat.toDigits, toDigitsCore_eq_decDigits (n + 1) n [] (by omega)]
  simp [List.asString]

theorem decodeDec_append_digit (cs : List Char) (c : Char) :
    decodeDec (cs ++ [c]) = 10 * decodeDec cs + decVal c := by
  simp [decodeDec, List.foldl_append]

theorem decodeDec_decDigits (n : Nat) : decodeDec (decDigits n) = n := by
  induction n using Nat.strong_induction_on with
  | _ n ih =>
    have hdig : ∀ m, m < 10 → decVal (Nat.digitChar m) = m := by decide
    by_cases h : n < 10
    · rw [decDigits, if_pos h]
      simpa [decodeDec] using hdig n h
    · rw [decDigits, if_neg h]
      rw [decodeDec_append_digit]
      rw [ih (n / 10) (Nat.div_lt_self (by omega) (by omega))]
      rw [hdig (n % 10) (Nat.mod_lt _ (by omega))]
      omega

theorem decDigits_injective : Function.Injective decDigits := by
  intro m n h
  have := congrArg decodeDec h
  simpa [decodeDec_decDigits] using this

theorem natRepr_injective : Function.Injective Nat.repr := by
  intro m n h
  apply decDigits_injective
  rw [← natRepr_data, ← natRepr_data, h]

/-- Disambiguated candidate built by the resolver: the Python f-string
`f"{pre}({i}){post}"` with `i` rendered in decimal. -/
def candidate (pre post : String) (i : Nat) : String :=
  pre ++ "(" ++ Nat.repr i ++ ")" ++ post

/-- Candidate for a colliding file: numeric suffix between stem and extension,
src/main.py line 509. -/
def fileCandidate (name : String) (i : Nat) : String :=
  candidate (pathStem name) (pathSuffix name) i

/-- Candidate for a colliding directory: numeric suffix after the whole name,
src/main.py line 478. -/
def dirCandidate (name : String) (i : Nat) : String :=
  name ++ "(" ++ Nat.repr i ++ ")"

theorem dirCandidate_eq (name : String) (i : Nat) :
    dirCandidate name i = candidate name "" i := by
  simp [dirCandidate, candidate]

theorem candidate_injective (pre post : String) :
    Function.Injective (candidate pre post) := by
  intro i j h
  apply natRepr_injective
  apply String.ext
  have h2 := congrArg String.data h
  simp only [candidate, String.data_append, List.append_assoc] at h2
  have h3 := List.append_cancel_left h2
  have h4 := List.append_cancel_left h3
  exact List.append_cancel_right h4

theorem candidate_ne_append (pre post : String) (i : Nat) :
    candidate pre post i ≠ pre ++ post := by
  intro h
  have h2 := congrArg (fun s => s.data.length) h
  simp [candidate, String.data_append, List.length_append] at h2
  omega

theorem stem_append_suffix (name : String) :
    pathStem name ++ pathSuffix name = name := by
  unfold pathStem pathSuffix
  cases hL : lastDotIndex name.data with
  | none =>
    dsimp only
    simp
  | some i =>
    dsimp only
    by_cases hc : 0 < i ∧ i + 1 < name.data.length
    · rw [if_pos hc, if_pos hc]
      apply String.ext
      simp [String.data_append]
    · rw [if_neg hc, if_neg hc]
      simp

theorem exists_unused (occ : List String) (pre post : String) :
    ∃ j, candidate pre post (j + 1) ∉ occ := by
  have hinj : Function.Injective fun j : Nat => candidate pre post (j + 1) := by
    intro a b hab
    have := candidate_injective pre post hab
    omega
  have hinf := Set.infinite_range_of_injective hinj
  obtain ⟨x, hx, hnx⟩ := hinf.exists_not_mem_finite occ.finite_toSet
  obtain ⟨j, rfl⟩ := hx
  exact ⟨j, hnx⟩

theorem exists_unused_dir (occ : List String) (name : String) :
    ∃ j, dirCandidate name (j + 1) ∉ occ := by
  simpa [dirCandidate_eq] using exists_unused occ name ""

/-- Collision-free target name for a file, src/main.py lines 505-511: if the
desired name is free it is used as is; otherwise the first `stem(i).ext`
(`i` counted up from 1) that is free is used.  `occ` is the set of names that
currently exist in the destination directory. -/
def resolveFile (occ : List String) (name : String) : String :=
  if name ∈ occ then
    fileCandidate name (Nat.find (exists_unused occ (pathStem name) (pathSuffix name)) + 1)
  else name

/-- Collision-free target name for a directory, src/main.py lines 475-480:
like `resolveFile` but the numeric suffix is appended to the whole name. -/
def resolveDir (occ : List String) (name : String) : String :=
  if name ∈ occ then
    dirCandidate name (Nat.find (exists_unused_dir occ name) + 1)
  else name

theorem resolveFile_not_mem (occ : List String) (name : String) :
    resolveFile occ name ∉ occ := by
  by_cases h : name ∈ occ
  · rw [resolveFile, if_pos h]
    exact Nat.find_spec (exists_unused occ (pathStem name) (pathSuffix name))
  · rw [resolveFile, if_neg h]
    exact h

theorem resolveDir_not_mem (occ : List String) (name : String) :
    resolveDir occ name ∉ occ := by
  by_cases h : name ∈ occ
  · rw [resolveDir, if_pos h]
    exact Nat.find_spec (exists_unused_dir occ name)
  · rw [resolveDir, if_neg h]
    exact h

theorem resolveFile_free (occ : List String) (name : String) (h : name ∉ occ) :
    resolveFile occ name = name := by
  rw [resolveFile, if_neg h]

theorem resolveDir_free (occ : List String) (name : String) (h : name ∉ occ) :
    resolveDir occ name = name := by
  rw [resolveDir, if_neg h]

theorem resolveFile_exact (occ : List String) (name : String) (k : Nat)
    (hocc : ∀ s, s ∈ occ ↔
      s ∈ name :: (List.range k).map (fun j => fileCandidate name (j + 1))) :
    resolveFile occ name = fileCandidate name (k + 1) := by
  have hname : name ∈ occ := (hocc name).2 (List.mem_cons_self _ _)
  rw [resolveFile, if_pos hname]
  unfold fileCandidate
  congr 1
  have hk : Nat.find (exists_unused occ (pathStem name) (pathSuffix name)) = k := by
    rw [Nat.find_eq_iff]
    constructor
    · intro hmem
      rcases List.mem_cons.1 ((hocc _).1 hmem) with h | h
      · exact candidate_ne_append (pathStem name) (pathSuffix name) (k + 1)
          (h.trans (stem_append_suffix name).symm)
      · rcases List.mem_map.1 h with ⟨j, hj, hje⟩
        have := candidate_injective (pathStem name) (pathSuffix name) hje
        have := List.mem_range.1 hj
        omega
    · intro m hm
      simp only [not_not]
      refine (hocc _).2 (List.mem_cons_of_mem _ (List.mem_map.2 ⟨m, List.mem_range.2 hm, rfl⟩))
  omega

theorem resolveDir_exact (occ : List String) (name : String) (k : Nat)
    (hocc : ∀ s, s ∈ occ ↔
      s ∈ name :: (List.range k).map (fun j => dirCandidate name (j + 1))) :
    resolveDir occ name = dirCandidate name (k + 1) := by
  have hname : name ∈ occ := (hocc name).2 (List.mem_cons_self _ _)
  rw [resolveDir, if_pos hname]
  congr 1
  have hk : Nat.find (exists_unused_dir occ name) = k := by
    rw [Nat.find_eq_iff]
    constructor
    · intro hmem
      rcases List.mem_cons.1 ((hocc _).1 hmem) with h | h
      · refine candidate_ne_append name "" (k + 1) ?_
        rw [← dirCandidate_eq]
        rw [h]
        simp
      · rcases List.mem_map.1 h with ⟨j, hj, hje⟩
        rw [dirCandidate_eq, dirCandidate_eq] at hje
        have := candidate_injective name "" hje
        have := List.mem_range.1 hj
        omega
    · intro m hm
      simp only [not_not]
      refine (hocc _).2 (List.mem_cons_of_mem _ (List.mem_map.2 ⟨m, List.mem_range.2 hm, rfl⟩))
  omega

theorem registryLookup_eq_none (ext : String) (h : ext ∉ allRegisteredExt) :
    registryLookup ext = none := by
  have hall : ∀ q ∈ extensionRegistry, q.1 ∈ allRegisteredExt := by decide
  have hnone : extensionRegistry.find? (fun p => p.1 = ext) = none := by
    rw [List.find?_eq_none]
    intro p hp
    simp only [decide_eq_true_eq]
    intro hEq
    exact h (hEq ▸ hall p hp)
  rw [registryLookup, hnone]
  rfl

theorem workerExtDest_eq_registry_of_mem :
    ∀ ext ∈ allRegisteredExt, workerExtDest ext = (registryLookup ext).getD .others := by
  decide

theorem not_mem_parts (ext : String) (h : ext ∉ allRegisteredExt) :
    ext ∉ IMAGE_EXT ∧ ext ∉ VIDEO_EXT ∧ ext ∉ AUDIO_EXT ∧ ext ∉ SETUP_EXT ∧
      ext ∉ DOC_EXT ∧ ext ∉ COMPRESSED_EXT := by
  simp only [allRegisteredExt, List.mem_append, not_or] at h
  tauto

theorem workerExtDest_eq_registry (ext : String) :
    workerExtDest ext = (registryLookup ext).getD .others := by
  by_cases h : ext ∈ allRegisteredExt
  · exact workerExtDest_eq_registry_of_mem ext h
  · obtain ⟨h1, h2, h3, h4, h5, h6⟩ := not_mem_parts ext h
    rw [registryLookup_eq_none ext h]
    simp [workerExtDest, h1, h2, h3, h4, h5, h6]

theorem scan_agrees_worker_of_mem :
    ∀ ext ∈ allRegisteredExt, destOfScanCat (scanCatOf ext) = workerExtDest ext := by
  decide

theorem scan_agrees_worker (ext : String) :
    destOfScanCat (scanCatOf ext) = workerExtDest ext := by
  by_cases h : ext ∈ allRegisteredExt
  · exact scan_agrees_worker_of_mem ext h
  · obtain ⟨h1, h2, h3, h4, h5, h6⟩ := not_mem_parts ext h
    simp [scanCatOf, workerExtDest, destOfScanCat, h1, h2, h3, h4, h5, h6]

theorem ext_sets_disjoint :
    [IMAGE_EXT, VIDEO_EXT, AUDIO_EXT, SETUP_EXT, DOC_EXT,
      COMPRESSED_EXT].Pairwise (fun A B => ∀ a ∈ A, a ∉ B) := by
  decide

/-- Operation mode, the value of `mode_var` (move or copy). -/
inductive Mode where
  | move
  | copy
deriving DecidableEq

/-- Per-item outcome oracle: either the shutil transfer succeeds, with the
resolved target path that is logged, or it raises with a message.  This
abstracts the filesystem effects of one item of the worker loop. -/
inductive Outcome where
  | ok (target : String)
  | err (reason : String)
deriving DecidableEq

/-- One enumerated source entry, its kind, and what its transfer attempt
would do. -/
structure WorkItem where
  name : String
  isDir : Bool
  outcome : Outcome
deriving DecidableEq

/-- The log line emitted for one processed item: src/main.py lines 482-487
(directories), 513-518 (files), 520-521 (failures). -/
def processLog (mode : Mode) (it : WorkItem) : String :=
  match it.outcome with
  | .ok target =>
    if it.isDir then
      match mode with
      | .move => "Moved folder: " ++ it.name ++ " -> " ++ target
      | .copy => "Copied folder: " ++ it.name ++ " -> " ++ target
    else
      match mode with
      | .move => "Moved: " ++ it.name ++ " -> " ++ target
      | .copy => "Copied: " ++ it.name ++ " -> " ++ target
  | .err reason => "Error processing " ++ it.name ++ ": " ++ reason

/-- Final log line after a cancelled run, src/main.py line 532. -/
def stoppedLine : String := "Operation stopped before completion."

/-- Final log line after a complete run, src/main.py line 534. -/
def completedLine (processed : Nat) : String :=
  "Operation completed: " ++ Nat.repr processed ++ " items processed."

/-- The worker loop of `App._worker`, src/main.py lines 468-534.  `running p`
is the value of the shared `self.running` flag as observed by the boundary
check performed after `p` items have completed (line 469 inside the loop,
line 531 after it); the flag is read nowhere else, so a transfer in progress
is never interrupted by construction.  The result is the final processed
count, the worker's log lines in emission order, and the list of items whose
transfer was actually attempted. -/
def workerLoop (mode : Mode) (running : Nat → Bool) :
    List WorkItem → Nat → Nat × List String × List WorkItem
  | [], p => (p, [if running p then completedLine p else stoppedLine], [])
  | it :: rest, p =>
    if running p then
      let r := workerLoop mode running rest (p + 1)
      (r.1, processLog mode it :: r.2.1, it :: r.2.2)
    else
      (p, [stoppedLine], [])

/-- The whole worker body including the empty-source early return
(src/main.py lines 457-462). -/
def workerRun (mode : Mode) (running : Nat → Bool) (items : List WorkItem) :
    Nat × List String × List WorkItem :=
  if items.length = 0 then (0, ["No items in source folder."], [])
  else workerLoop mode running items 0

theorem workerLoop_all_running (mode : Mode) (running : Nat → Bool)
    (h : ∀ j, running j = true) (items : List WorkItem) :
    ∀ p, workerLoop mode running items p =
      (p + items.length,
        items.map (processLog mode) ++ [completedLine (p + items.length)],
        items) := by
  induction items with
  | nil =>
    intro p
    simp [workerLoop, h p]
  | cons it rest ih =>
    intro p
    rw [workerLoop]
    rw [if_pos (h p)]
    rw [ih (p + 1)]
    have harith : p + 1 + rest.length = p + (rest.length + 1) := by omega
    simp [harith]

theorem workerLoop_cancel (mode : Mode) (running : Nat → Bool) :
    ∀ (items : List WorkItem) (p i : Nat), i < items.length →
      (∀ j, j < i → running (p + j) = true) → running (p + i) = false →
      workerLoop mode running items p =
        (p + i, (items.take i).map (processLog mode) ++ [stoppedLine],
          items.take i) := by
  intro items
  induction items with
  | nil =>
    intro p i hi
    simp at hi
  | cons it rest ih =>
    intro p i hi htrue hfalse
    cases i with
    | zero =>
      rw [workerLoop]
      rw [if_neg (by simpa using hfalse)]
      simp
    | succ i' =>
      have h0 : running p = true := by simpa using htrue 0 (by omega)
      rw [workerLoop]
      rw [if_pos h0]
      rw [ih (p + 1) i' (by simpa using hi)
        (fun j hj => by
          have hh : p + 1 + j = p + (j + 1) := by omega
          rw [hh]
          exact htrue (j + 1) (by omega))
        (by
          have : p + 1 + i' = p + (i' + 1) := by omega
          rw [this]
          exact hfalse)]
      have harith : p + 1 + i' = p + (i' + 1) := by omega
      simp [harith]

/-- A filesystem node: a file with its bytes, or a directory with its named
children.  Equality of nodes is exactly "identical content": byte-for-byte
for files, identical tree structure and file contents for directories. -/
inductive Node where
  | file (bytes : List Nat)
  | dir (children : List (String × Node))

/-- A filesystem fragment: which node, if any, lives at each absolute path. -/
def Fs := String → Option Node

/-- Embedding of a successful `shutil.move` (src/main.py lines 483 and 514):
the node leaves the source path and appears at the target path. -/
def shutilMove (fs : Fs) (src tgt : String) : Fs :=
  fun p => if p = tgt then fs src else if p = src then none else fs p

/-- Embedding of a successful `shutil.copy2` / `shutil.copytree`
(src/main.py lines 486 and 517): the node is duplicated at the target path
and the source is untouched. -/
def shutilCopy (fs : Fs) (src tgt : String) : Fs :=
  fun p => if p = tgt then fs src else fs p

/-- The transfer call chosen by mode for one item, src/main.py lines 482-487
(directories: `shutil.move` or `shutil.copytree`) and 513-518 (files:
`shutil.move` or `shutil.copy2`). -/
def transfer (mode : Mode) (fs : Fs) (src tgt : String) : Fs :=
  match mode with
  | .move => shutilMove fs src tgt
  | .copy => shutilCopy fs src tgt

/-- The state read by `App.start` (src/main.py lines 421-446) together with
the world facts the validation contract of the spec mentions: `destOk path`
says whether `path` names an existing writable directory.  The code never
consults `destOk`. -/
structure StartState where
  running : Bool
  srcExists : Bool
  srcIsDir : Bool
  imagesVar : String
  audioVar : String
  setupVar : String
  docsVar : String
  compressedVar : String
  othersVar : String
  destOk : String → Bool

/-- Result of a start request. -/
inductive StartResult where
  | noop
  | rejectedSource
  | rejectedDest
  | accepted
deriving DecidableEq

/-- Embedding of `App.start`, src/main.py lines 421-446: the outcome of the
request and the value of `self.running` immediately afterwards (the worker
thread is spawned only in the accepted case). -/
def start (s : StartState) : StartResult × Bool :=
  if s.running = true then (.noop, s.running)
  else if ¬ (s.srcExists = true ∧ s.srcIsDir = true) then (.rejectedSource, false)
  else if s.imagesVar = "" ∨ s.audioVar = "" ∨ s.setupVar = "" ∨ s.docsVar = "" ∨
      s.compressedVar = "" ∨ s.othersVar = "" then (.rejectedDest, false)
  else (.accepted, true)

/-- One file met by the `os.walk` traversal of `App.scan_sizes`: its name and
the result of `stat` (`none` when `stat` raises, in which case line 388-389
skips the file entirely). -/
structure ScannedFile where
  name : String
  statSize : Option Nat

/-- Aggregate statistics state of `App.scan_sizes`, lines 337-356. -/
structure ScanStats where
  totalSize : Nat
  totalFiles : Nat
  sizes : ScanCat → Nat
  counts : ScanCat → Nat

/-- Initial statistics: all zero. -/
def initStats : ScanStats :=
  { totalSize := 0, totalFiles := 0, sizes := fun _ => 0, counts := fun _ => 0 }

/-- Processing of one file in the scan loop, lines 359-389: a failed stat
contributes nothing; otherwise the totals grow and the size and count of
exactly one category (chosen by the statistics chain on the lower-cased
suffix) grow. -/
def scanStep (acc : ScanStats) (f : ScannedFile) : ScanStats :=
  match f.statSize with
  | none => acc
  | some size =>
    let cat := scanCatOf (strLower (pathSuffix f.name))
    { totalSize := acc.totalSize + size
      totalFiles := acc.totalFiles + 1
      sizes := fun c => if c = cat then acc.sizes c + size else acc.sizes c
      counts := fun c => if c = cat then acc.counts c + 1 else acc.counts c }

/-- The whole scan over the flattened list of files found by `os.walk`. -/
def scanRun (files : List ScannedFile) : ScanStats :=
  files.foldl scanStep initStats

/-- Sum of a per-category quantity over all seven statistics categories. -/
def sumOver (g : ScanCat → Nat) : Nat :=
  g .documents + g .audio + g .setupFiles + g .images + g .videos +
    g .compressed + g .other

theorem sumOver_bump (g : ScanCat → Nat) (cat : ScanCat) (k : Nat) :
    sumOver (fun c => if c = cat then g c + k else g c) = sumOver g + k := by
  cases cat <;> simp [sumOver] <;> omega

theorem scan_invariant_aux (files : List ScannedFile) :
    ∀ acc : ScanStats,
      sumOver acc.sizes = acc.totalSize → sumOver acc.counts = acc.totalFiles →
      sumOver (files.foldl scanStep acc).sizes = (files.foldl scanStep acc).totalSize ∧
        sumOver (files.foldl scanStep acc).counts = (files.foldl scanStep acc).totalFiles := by
  induction files with
  | nil => exact fun acc h1 h2 => ⟨h1, h2⟩
  | cons f rest ih =>
    intro acc h1 h2
    refine ih (scanStep acc f) ?_ ?_
    · cases hst : f.statSize with
      | none => simpa [scanStep, hst] using h1
      | some size =>
        rw [scanStep]
        rw [hst]
        simpa [sumOver_bump] using congrArg (fun t => t + size) h1
    · cases hst : f.statSize with
      | none => simpa [scanStep, hst] using h2
      | some size =>
        rw [scanStep]
        rw [hst]
        simpa [sumOver_bump] using h2

/-- The six destination directory strings captured from the GUI variables. -/
structure DestMap where
  imagesDest : String
  audioDest : String
  setupDest : String
  docsDest : String
  compressedDest : String
  othersDest : String

/-- Destination directory chosen for one item by the worker, src/main.py
lines 472-474 (directories go to the Others destination unconditionally) and
491-503 (files follow the extension chain). -/
def chooseDest (d : DestMap) (isDir : Bool) (name : String) : String :=
  if isDir then d.othersDest
  else
    let ext := strLower (pathSuffix name)
    if ext ∈ IMAGE_EXT ∨ ext ∈ VIDEO_EXT then d.imagesDest
    else if ext ∈ DOC_EXT then d.docsDest
    else if ext ∈ AUDIO_EXT then d.audioDest
    else if ext ∈ SETUP_EXT then d.setupDest
    else if ext ∈ COMPRESSED_EXT then d.compressedDest
    else d.othersDest

/-- C1: the path resolver never chooses a name that currently exists in the
destination directory: a non-colliding desired name is returned unchanged,
and when the pre-existing colliding names are exactly
`name, name(1), …, name(k)` (numeric suffix before the extension for files,
after the whole name for directories) the chosen target is `name(k+1)`.
`occ` is the list of names existing in the destination directory at
resolution time. -/
theorem c1_resolver_collision_free :
    (∀ occ name, resolveFile occ name ∉ occ) ∧
    (∀ occ name, resolveDir occ name ∉ occ) ∧
    (∀ occ name, name ∉ occ →
      resolveFile occ name = name ∧ resolveDir occ name = name) ∧
    (∀ occ name k,
      (∀ s, s ∈ occ ↔
        s ∈ name :: (List.range k).map (fun j => fileCandidate name (j + 1))) →
      resolveFile occ name = fileCandidate name (k + 1)) ∧
    (∀ occ name k,
      (∀ s, s ∈ occ ↔
        s ∈ name :: (List.range k).map (fun j => dirCandidate name (j + 1))) →
      resolveDir occ name = dirCandidate name (k + 1)) :=
  ⟨resolveFile_not_mem, resolveDir_not_mem,
    fun occ name h => ⟨resolveFile_free occ name h, resolveDir_free occ name h⟩,
    resolveFile_exact, resolveDir_exact⟩

/-- Witness for C1: with exactly `a.txt` and `a(1).txt` present in the
destination, the resolver picks `a(2).txt`. -/
theorem c1_resolver_collision_free_witness :
    resolveFile
      ("a.txt" :: (List.range 1).map (fun j => fileCandidate "a.txt" (j + 1)))
      "a.txt" = "a(2).txt" :=
  (c1_resolver_collision_free.2.2.2.1 _ "a.txt" 1 (fun s => Iff.rfl)).trans
    (by decide)

/-- C2: for an item transferred successfully (source node present, resolved
target path not present, which is what the resolver guarantees): after a
move the source path no longer exists and the target path holds exactly the
original node (identical content: byte-for-byte for a file, identical tree
structure and file contents for a directory); after a copy both the source
and the target hold that node. -/
theorem c2_transfer_round_trip (fs : Fs) (src tgt : String) (node : Node)
    (hsrc : fs src = some node) (htgt : fs tgt = none) :
    transfer .move fs src tgt src = none ∧
    transfer .move fs src tgt tgt = some node ∧
    transfer .copy fs src tgt src = some node ∧
    transfer .copy fs src tgt tgt = some node := by
  have hne : src ≠ tgt := fun h => by
    rw [h, htgt] at hsrc
    exact Option.noConfusion hsrc
  refine ⟨?_, ?_, ?_, ?_⟩ <;>
    simp [transfer, shutilMove, shutilCopy, hsrc, htgt, hne]

/-- Witness for C2 on a one-file filesystem. -/
theorem c2_transfer_round_trip_witness :
    transfer .move
      (fun p => if p = "/src/a.txt" then some (Node.file [1, 2]) else none)
      "/src/a.txt" "/docs/a.txt" "/src/a.txt" = none :=
  (c2_transfer_round_trip
    (fun p => if p = "/src/a.txt" then some (Node.file [1, 2]) else none)
    "/src/a.txt" "/docs/a.txt" (Node.file [1, 2]) (by simp) (by simp)).1

/-- C3: if the cancellation flag is still true at every boundary check before
item `i+1` and false at the check made after item `i` completes, the run
processes exactly `i` items, the remaining items are never attempted (they
stay in the source directory), and — the flag being consulted only at the
loop boundary — each attempted item's transfer runs to completion. -/
theorem c3_cancellation (mode : Mode) (running : Nat → Bool)
    (items : List WorkItem) (i : Nat) (hi : i < items.length)
    (htrue : ∀ j, j < i → running j = true) (hfalse : running i = false) :
    workerRun mode running items =
      (i, (items.take i).map (processLog mode) ++ [stoppedLine],
        items.take i) := by
  have hne : items.length ≠ 0 := by omega
  rw [workerRun, if_neg hne]
  have h := workerLoop_cancel mode running items 0 i hi
    (fun j hj => by simpa using htrue j hj) (by simpa using hfalse)
  simpa using h

/-- Witness for C3: cancellation visible after the first of two items. -/
theorem c3_cancellation_witness :
    workerRun .move (fun j => j == 0)
      [⟨"a.jpg", false, .ok "/img/a.jpg"⟩, ⟨"b.txt", false, .ok "/doc/b.txt"⟩] =
      (1, ["Moved: a.jpg -> /img/a.jpg", stoppedLine],
        [⟨"a.jpg", false, .ok "/img/a.jpg"⟩]) :=
  (c3_cancellation .move (fun j => j == 0)
    [⟨"a.jpg", false, .ok "/img/a.jpg"⟩, ⟨"b.txt", false, .ok "/doc/b.txt"⟩] 1
    (by decide)
    (fun j hj => by
      have hj0 : j = 0 := by omega
      rw [hj0]
      rfl)
    rfl).trans (by decide)

/-- C4 is false as stated: by the claim's definition of the extension, the
hidden file `.jpg` has extension `.jpg`, which is registered for
Images/Videos, but the code's pathlib suffix of `.jpg` is empty (the only
dot is the first character), so the worker classifies the file as Other. -/
theorem c4_counterexample :
    workerDestOf ".jpg" = DestCat.others ∧
    specClassify ".jpg" = DestCat.imagesVideos ∧
    workerDestOf ".jpg" ≠ specClassify ".jpg" := by
  decide

/-- C4 amended: classification is determined by the lower-cased pathlib
suffix — the substring starting at the final dot provided that dot is
neither the first nor the last character of the name, and the empty string
otherwise: a registered suffix is assigned its registered category and any
other suffix (including the empty one) is assigned Other. -/
theorem c4_classification_registry (name : String) :
    workerDestOf name = (registryLookup (strLower (pathSuffix name))).getD .others :=
  workerExtDest_eq_registry (strLower (pathSuffix name))

/-- C5: a directory entry is sent to the Others destination by the worker
unconditionally, whatever extension-like suffix its name has. -/
theorem c5_directories_to_others (d : DestMap) (name : String) :
    chooseDest d true name = d.othersDest :=
  rfl

/-- The start state refuting C6: valid source, all six destination strings
non-empty but naming no existing writable directory. -/
def c6State : StartState :=
  { running := false, srcExists := true, srcIsDir := true,
    imagesVar := "/nowhere", audioVar := "/nowhere", setupVar := "/nowhere",
    docsVar := "/nowhere", compressedVar := "/nowhere", othersVar := "/nowhere",
    destOk := fun _ => false }

/-- C6 is false as stated: `App.start` accepts this request although none of
the six destinations references an existing writable directory, because the
code checks the destination strings only for non-emptiness. -/
theorem c6_counterexample :
    (start c6State).1 = StartResult.accepted ∧
    c6State.destOk c6State.imagesVar = false :=
  ⟨rfl, rfl⟩

/-- C6 amended: an idle start request is accepted exactly when the source
exists and is a directory and all six destination strings are non-empty;
existence and writability of the destination directories are not checked.
Every rejection leaves the running flag false (state Idle), before any item
is processed. -/
theorem c6_start_validation (s : StartState) (h : s.running = false) :
    ((start s).1 = .accepted ↔
      (s.srcExists = true ∧ s.srcIsDir = true ∧ s.imagesVar ≠ "" ∧
        s.audioVar ≠ "" ∧ s.setupVar ≠ "" ∧ s.docsVar ≠ "" ∧
        s.compressedVar ≠ "" ∧ s.othersVar ≠ "")) ∧
    ((start s).1 ≠ .accepted → (start s).2 = false) := by
  by_cases h1 : s.srcExists = true ∧ s.srcIsDir = true
  · by_cases h2 : s.imagesVar = "" ∨ s.audioVar = "" ∨ s.setupVar = "" ∨
        s.docsVar = "" ∨ s.compressedVar = "" ∨ s.othersVar = ""
    · have hs : start s = (.rejectedDest, false) := by
        rw [start, h]
        simp only [Bool.false_eq_true, if_false]
        rw [if_neg (by tauto), if_pos h2]
      rw [hs]
      constructor
      · constructor
        · intro hacc
          exact absurd hacc (by simp)
        · intro hall
          rcases h2 with h2 | h2 | h2 | h2 | h2 | h2 <;> tauto
      · intro _
        rfl
    · have hs : start s = (.accepted, true) := by
        rw [start, h]
        simp only [Bool.false_eq_true, if_false]
        rw [if_neg (by tauto), if_neg h2]
      rw [hs]
      push_neg at h2
      constructor
      · constructor
        · intro _
          exact ⟨h1.1, h1.2, h2.1, h2.2.1, h2.2.2.1, h2.2.2.2.1,
            h2.2.2.2.2.1, h2.2.2.2.2.2⟩
        · intro _
          rfl
      · intro hne
        exact absurd rfl hne
  · have hs : start s = (.rejectedSource, false) := by
      rw [start, h]
      simp only [Bool.false_eq_true, if_false]
      rw [if_pos h1]
    rw [hs]
    constructor
    · constructor
      · intro hacc
        exact absurd hacc (by simp)
      · intro hall
        exact absurd ⟨hall.1, hall.2.1⟩ h1
    · intro _
      rfl

/-- Witness for C6 (amended): the start request of `c6State` is accepted. -/
theorem c6_start_validation_witness : (start c6State).1 = StartResult.accepted :=
  (c6_start_validation c6State rfl).1.2
    (by refine ⟨rfl, rfl, ?_, ?_, ?_, ?_, ?_, ?_⟩ <;> decide)

/-- C7: when the flag stays true, every item is attempted: the processed
count ends at the number of items regardless of per-item failures, the log
has one line per item followed by the completion line, and a failing item is
logged with its name and reason. -/
theorem c7_per_item_failures (mode : Mode) (running : Nat → Bool)
    (items : List WorkItem) (h : ∀ j, running j = true) :
    (workerRun mode running items).1 = items.length ∧
    (0 < items.length →
      (workerRun mode running items).2.1 =
        items.map (processLog mode) ++ [completedLine items.length]) ∧
    (∀ it : WorkItem, ∀ reason, it.outcome = .err reason →
      processLog mode it = "Error processing " ++ it.name ++ ": " ++ reason) := by
  refine ⟨?_, ?_, ?_⟩
  · by_cases hlen : items.length = 0
    · rw [workerRun, if_pos hlen]
      simpa using hlen.symm
    · rw [workerRun, if_neg hlen,
        workerLoop_all_running mode running h items 0]
      simp
  · intro hpos
    rw [workerRun, if_neg (by omega),
      workerLoop_all_running mode running h items 0]
    simp
  · intro it reason hout
    simp [processLog, hout]

/-- Witness for C7: a run whose only item fails still counts it processed. -/
theorem c7_per_item_failures_witness :
    (workerRun .move (fun _ => true) [⟨"x.pdf", false, .err "denied"⟩]).1 = 1 :=
  (c7_per_item_failures .move (fun _ => true)
    [⟨"x.pdf", false, .err "denied"⟩] (fun _ => rfl)).1

/-- C8: for a source tree in which no per-file stat fails, the per-category
sizes (Other included) sum to the total scanned size and the per-category
counts sum to the total scanned file count. -/
theorem c8_scan_sums (files : List ScannedFile)
    (h : ∀ f ∈ files, f.statSize ≠ none) :
    sumOver (scanRun files).sizes = (scanRun files).totalSize ∧
    sumOver (scanRun files).counts = (scanRun files).totalFiles :=
  scan_invariant_aux files initStats rfl rfl

/-- Witness for C8 on a two-file tree. -/
theorem c8_scan_sums_witness :
    sumOver (scanRun [⟨"a.jpg", some 10⟩, ⟨"b", some 5⟩]).sizes
      = (scanRun [⟨"a.jpg", some 10⟩, ⟨"b", some 5⟩]).totalSize :=
  (c8_scan_sums [⟨"a.jpg", some 10⟩, ⟨"b", some 5⟩] (by decide)).1

/-- The two-files-one-folder move scenario of C9, with every transfer
succeeding. -/
def c9Items : List WorkItem :=
  [⟨"a.jpg", false, .ok "/img/a.jpg"⟩, ⟨"b.txt", false, .ok "/doc/b.txt"⟩,
    ⟨"notes", true, .ok "/oth/notes"⟩]

/-- C9 is false as stated: a successful folder move is logged as
"Moved folder: X -> Y", not "Moved: X -> Y", so the full-move run over two
files and one folder emits two lines of the form "Moved: …", not three. -/
theorem c9_counterexample :
    (workerRun .move (fun _ => true) c9Items).2.1 =
      ["Moved: a.jpg -> /img/a.jpg", "Moved: b.txt -> /doc/b.txt",
        "Moved folder: notes -> /oth/notes", completedLine 3] ∧
    ¬ ((workerRun .move (fun _ => true) c9Items).2.1.countP
        (fun l => ("Moved: ".data).isPrefixOf l.data) = 3) := by
  decide

/-- C9 amended: one log line per processed item, in enumeration order,
reading "Moved: X -> Y" or "Copied: X -> Y" for files,
"Moved folder: X -> Y" or "Copied folder: X -> Y" for directories, and
"Error processing X: reason" on failure; the two-files-one-folder move
scenario hence yields two "Moved:" lines and then one "Moved folder:" line. -/
theorem c9_log_lines (mode : Mode) (running : Nat → Bool)
    (h : ∀ j, running j = true) (items : List WorkItem)
    (hne : 0 < items.length) :
    (workerRun mode running items).2.1 =
      items.map (processLog mode) ++ [completedLine items.length] ∧
    ((workerRun .move (fun _ => true) c9Items).2.1.countP
        (fun l => ("Moved: ".data).isPrefixOf l.data) = 2 ∧
      (workerRun .move (fun _ => true) c9Items).2.1.countP
        (fun l => ("Moved folder: ".data).isPrefixOf l.data) = 1) := by
  constructor
  · rw [workerRun, if_neg (by omega),
      workerLoop_all_running mode running h items 0]
    simp
  · decide

/-- Witness for C9 (amended) on the scenario items. -/
theorem c9_log_lines_witness :
    (workerRun .move (fun _ => true) c9Items).2.1 =
      c9Items.map (processLog .move) ++ [completedLine c9Items.length] :=
  (c9_log_lines .move (fun _ => true) (fun _ => rfl) c9Items (by decide)).1

/-- C10: the statistics chain and the worker's destination chain agree on
every extension string (the scan's Images and Videos categories both map to
the Images/Videos destination), and the six extension sets are pairwise
disjoint, so the different check orders of the two chains cannot change the
outcome. -/
theorem c10_scan_worker_agree :
    (∀ ext : String, destOfScanCat (scanCatOf ext) = workerExtDest ext) ∧
    [IMAGE_EXT, VIDEO_EXT, AUDIO_EXT, SETUP_EXT, DOC_EXT,
      COMPRESSED_EXT].Pairwise (fun A B => ∀ a ∈ A, a ∉ B) :=
  ⟨scan_agrees_worker, ext_sets_disjoint⟩

end FileOrganizer
